import Mathlib

set_option maxHeartbeats 1000000

/-!
Verification of the OAuth 2.1 authorization / token-issuance subsystem of the
firefly-iii-mcp repository.  The stateful core is the `InMemoryOAuthProvider`
(packages/mcp-server, SDK-facing provider) together with the legacy
`OAuthProvider` (oauth.ts) that performs PKCE verification itself.  The
TypeScript `Map<string, V>` stores are modelled as association lists, the
`Date.now()` clock and the `randomUUID()` outputs are passed explicitly, and
thrown OAuth errors become `Except` values.  Each operation returns the
post-state together with the result so that mutations on error paths
(lazy eviction of expired records) are captured.
-/

namespace FireflyOAuth

/-- Association-list model of the TypeScript `Map<string, V>` stores. -/
abbrev SMap (α : Type) : Type := List (String × α)

namespace SMap

/-- `Map.get`: first binding for the key, if any. -/
def get {α : Type} : SMap α → String → Option α
  | [], _ => none
  | (k', v) :: rest, k => if k' = k then some v else get rest k

/-- `Map.set`: replace the binding for the key, or append a new one. -/
def set {α : Type} : SMap α → String → α → SMap α
  | [], k, v => [(k, v)]
  | (k', v') :: rest, k, v =>
      if k' = k then (k, v) :: rest else (k', v') :: set rest k v

/-- `Map.delete`: remove every binding for the key. -/
def del {α : Type} : SMap α → String → SMap α
  | [], _ => []
  | (k', v') :: rest, k =>
      if k' = k then del rest k else (k', v') :: del rest k

/-- `Map.has`. -/
def has {α : Type} (m : SMap α) (k : String) : Bool :=
  (m.get k).isSome

theorem get_set_self {α : Type} (m : SMap α) (k : String) (v : α) :
    (m.set k v).get k = some v := by
  induction m with
  | nil => simp [set, get]
  | cons hd tl ih =>
      obtain ⟨k', v'⟩ := hd
      by_cases h : k' = k
      · simp [set, get, h]
      · simp [set, get, h, ih]

theorem get_set_ne {α : Type} (m : SMap α) {k k' : String} (v : α)
    (h : k' ≠ k) : (m.set k v).get k' = m.get k' := by
  have h' : ¬ k = k' := fun hh => h hh.symm
  induction m with
  | nil => simp [set, get, h']
  | cons hd tl ih =>
      obtain ⟨k₀, v₀⟩ := hd
      by_cases h0 : k₀ = k
      · subst h0
        simp [set, get, h']
      · by_cases h1 : k₀ = k'
        · simp [set, get, h0, h1, h]
        · simp [set, get, h0, h1, ih]

theorem get_del_self {α : Type} (m : SMap α) (k : String) :
    (m.del k).get k = none := by
  induction m with
  | nil => simp [del, get]
  | cons hd tl ih =>
      obtain ⟨k', v'⟩ := hd
      by_cases h : k' = k
      · simp [del, h, ih]
      · simp [del, get, h, ih]

theorem get_del_ne {α : Type} (m : SMap α) {k k' : String}
    (h : k' ≠ k) : (m.del k).get k' = m.get k' := by
  have h' : ¬ k = k' := fun hh => h hh.symm
  induction m with
  | nil => simp [del]
  | cons hd tl ih =>
      obtain ⟨k₀, v₀⟩ := hd
      by_cases h0 : k₀ = k
      · subst h0
        simp [del, get, h', ih]
      · simp [del, get, h0, ih]

theorem del_absent {α : Type} (m : SMap α) (k : String)
    (h : m.get k = none) : m.del k = m := by
  induction m with
  | nil => simp [del]
  | cons hd tl ih =>
      obtain ⟨k', v'⟩ := hd
      by_cases h0 : k' = k
      · simp [get, h0] at h
      · simp [get, h0] at h
        simp [del, h0, ih h]

theorem del_del {α : Type} (m : SMap α) (k : String) :
    (m.del k).del k = m.del k :=
  del_absent _ _ (get_del_self m k)

end SMap

/-! Data model of the `InMemoryOAuthProvider` (oauth-provider module exported
through packages/mcp-server).  URLs are modelled by their `href` string, which
is exactly what the source compares (`resource.href !== canonical`).  All
timestamps are milliseconds since epoch, as produced by `Date.now()`. -/

/-- `AuthorizationCodeRecord` from the oauth-provider module. -/
structure AuthorizationCodeRecord where
  codeChallenge : String
  clientId : String
  redirectUri : String
  scopes : List String
  resource : Option String
  expiresAt : Nat
deriving Repr, DecidableEq

/-- `AccessTokenRecord` from the oauth-provider module. -/
structure AccessTokenRecord where
  token : String
  clientId : String
  scopes : List String
  resource : Option String
  expiresAt : Nat
deriving Repr, DecidableEq

/-- `RefreshTokenRecord` from the oauth-provider module. -/
structure RefreshTokenRecord where
  token : String
  clientId : String
  scopes : List String
  resource : Option String
  expiresAt : Nat
deriving Repr, DecidableEq

/-- The fields of `OAuthClientInformationFull` that the provider reads. -/
structure ClientInformation where
  client_id : String
  redirect_uris : List String
deriving Repr, DecidableEq

/-- `InMemoryOAuthProviderOptions` after the constructor applies defaults
(`strictResource` defaults to `true`, TTLs to 3600 s / 86400 s). -/
structure ProviderOptions where
  resourceServerUrl : String
  defaultScopes : List String
  accessTokenTtlSeconds : Nat
  refreshTokenTtlSeconds : Nat
  strictResource : Bool
deriving Repr, DecidableEq

/-- `AUTH_CODE_TTL = 5 * 60 * 1000` milliseconds (5 minutes). -/
def AUTH_CODE_TTL : Nat := 5 * 60 * 1000

/-- The three mutable stores of the provider (`codes`, `accessTokens`,
`refreshTokens`). -/
structure ProviderState where
  codes : SMap AuthorizationCodeRecord
  accessTokens : SMap AccessTokenRecord
  refreshTokens : SMap RefreshTokenRecord
deriving Repr, DecidableEq

/-- The OAuth error classes thrown by the provider
(`InvalidGrantError`, `InvalidRequestError`, `InvalidTokenError`). -/
inductive OAuthError where
  | invalidGrant (message : String)
  | invalidRequest (message : String)
  | invalidToken (message : String)
deriving Repr, DecidableEq

/-- The `AuthorizationParams` fields the provider reads in `authorize`. -/
structure AuthorizationParams where
  redirectUri : String
  scopes : Option (List String)
  codeChallenge : String
  state : Option String
  resource : Option String
deriving Repr, DecidableEq

/-- `OAuthTokens` response of the token exchanges. -/
structure OAuthTokens where
  access_token : String
  refresh_token : String
  token_type : String
  expires_in : Nat
  scope : String
deriving Repr, DecidableEq

/-- The redirect issued by `authorize`: the base URL is `params.redirectUri`
and `query` lists the parameters appended via `searchParams.set`. -/
structure RedirectTarget where
  url : String
  query : List (String × String)
deriving Repr, DecidableEq

/-- `AuthInfo` returned by `verifyAccessToken`. -/
structure AuthInfo where
  token : String
  clientId : String
  scopes : List String
  expiresAt : Nat
  resource : String
deriving Repr, DecidableEq

/-- Boolean test used in results below. -/
def exceptOk {ε α : Type} : Except ε α → Bool
  | .ok _ => true
  | .error _ => false

/-- `validateResource`: `undefined` passes through; in non-strict mode any
resource is returned; in strict mode a resource whose href differs from the
canonical resource-server URL raises `InvalidRequestError`. -/
def validateResource (opts : ProviderOptions) (resource : Option String) :
    Except OAuthError (Option String) :=
  match resource with
  | none => .ok none
  | some r =>
      if !opts.strictResource then .ok (some r)
      else if r ≠ opts.resourceServerUrl then
        .error (.invalidRequest ("Invalid resource parameter. Expected " ++
          opts.resourceServerUrl))
      else .ok (some r)

/-- `determineResource`: `validateResource(requested) ?? resourceServerUrl`. -/
def determineResource (opts : ProviderOptions) (requested : Option String) :
    Except OAuthError String :=
  match validateResource opts requested with
  | .error e => .error e
  | .ok v => .ok (v.getD opts.resourceServerUrl)

/-- `scopes && scopes.length > 0 ? scopes : fallback`, shared by `authorize`
(fallback = `defaultScopes`) and `exchangeRefreshToken`
(fallback = the record's scopes). -/
def scopesOrElse (fallback : List String) (scopes : Option (List String)) :
    List String :=
  match scopes with
  | some s => if s ≠ [] then s else fallback
  | none => fallback

/-- Query parameters appended to the redirect target by `authorize`:
`code`, then `state` when present. -/
def redirectQuery (code : String) (state : Option String) :
    List (String × String) :=
  ("code", code) :: (match state with
    | some s => [("state", s)]
    | none => [])

/-- `InMemoryOAuthProvider.authorize`.  The freshly generated `randomUUID` code
and the `Date.now()` instant are explicit arguments; the returned pair is the
post-state and either the OAuth error or the redirect issued to the client. -/
def authorize (opts : ProviderOptions) (client : ClientInformation)
    (params : AuthorizationParams) (code : String) (now : Nat)
    (st : ProviderState) : ProviderState × Except OAuthError RedirectTarget :=
  if !(client.redirect_uris.contains params.redirectUri) then
    (st, .error (.invalidRequest "Unregistered redirect_uri"))
  else
    let scopes := scopesOrElse opts.defaultScopes params.scopes
    match determineResource opts params.resource with
    | .error e => (st, .error e)
    | .ok resource =>
        let record : AuthorizationCodeRecord :=
          { codeChallenge := params.codeChallenge
            clientId := client.client_id
            redirectUri := params.redirectUri
            scopes := scopes
            resource := some resource
            expiresAt := now + AUTH_CODE_TTL }
        ({ st with codes := st.codes.set code record },
         .ok { url := params.redirectUri
               query := redirectQuery code params.state })

/-- `redirectUri && record.redirectUri !== redirectUri` (truthy check on the
optional redirect URI supplied at the token endpoint). -/
def redirectMismatch (stored : String) (supplied : Option String) : Bool :=
  match supplied with
  | some u => decide (stored ≠ u)
  | none => false

/-- `InMemoryOAuthProvider.exchangeAuthorizationCode`.  The two fresh
`randomUUID` token strings and the clock are explicit arguments. -/
def exchangeAuthorizationCode (opts : ProviderOptions)
    (client : ClientInformation) (authorizationCode : String)
    (redirectUri : Option String) (resource : Option String)
    (newAccessToken newRefreshToken : String) (now : Nat)
    (st : ProviderState) : ProviderState × Except OAuthError OAuthTokens :=
  match st.codes.get authorizationCode with
  | none => (st, .error (.invalidGrant "Invalid authorization code"))
  | some record =>
      if record.clientId ≠ client.client_id then
        (st, .error (.invalidGrant "Invalid authorization code"))
      else if record.expiresAt < now then
        ({ st with codes := st.codes.del authorizationCode },
         .error (.invalidGrant "Authorization code expired"))
      else if redirectMismatch record.redirectUri redirectUri then
        (st, .error (.invalidGrant "Redirect URI mismatch"))
      else
        match determineResource opts (resource <|> record.resource) with
        | .error e => (st, .error e)
        | .ok tokenResource =>
            let accessRecord : AccessTokenRecord :=
              { token := newAccessToken
                clientId := client.client_id
                scopes := record.scopes
                resource := some tokenResource
                expiresAt := now + opts.accessTokenTtlSeconds * 1000 }
            let refreshRecord : RefreshTokenRecord :=
              { token := newRefreshToken
                clientId := client.client_id
                scopes := record.scopes
                resource := some tokenResource
                expiresAt := now + opts.refreshTokenTtlSeconds * 1000 }
            ({ codes := st.codes.del authorizationCode
               accessTokens := st.accessTokens.set newAccessToken accessRecord
               refreshTokens :=
                 st.refreshTokens.set newRefreshToken refreshRecord },
             .ok { access_token := newAccessToken
                   refresh_token := newRefreshToken
                   token_type := "bearer"
                   expires_in := opts.accessTokenTtlSeconds
                   scope := String.intercalate " " record.scopes })

/-- `requestedScopes.some(scope => !record.scopes.includes(scope))`. -/
def missingScopes (recordScopes requested : List String) : Bool :=
  requested.any (fun s => !(recordScopes.contains s))

/-- `InMemoryOAuthProvider.exchangeRefreshToken`.  Mirrors the source order:
lookup/client check, expiry (with lazy delete), scope-escalation check,
resource determination, minting of the new pair, then deletion of the old
refresh token (rotation). -/
def exchangeRefreshToken (opts : ProviderOptions)
    (client : ClientInformation) (refreshToken : String)
    (scopes : Option (List String)) (resource : Option String)
    (newAccessToken newRefreshToken : String) (now : Nat)
    (st : ProviderState) : ProviderState × Except OAuthError OAuthTokens :=
  match st.refreshTokens.get refreshToken with
  | none => (st, .error (.invalidGrant "Invalid refresh token"))
  | some record =>
      if record.clientId ≠ client.client_id then
        (st, .error (.invalidGrant "Invalid refresh token"))
      else if record.expiresAt < now then
        ({ st with refreshTokens := st.refreshTokens.del refreshToken },
         .error (.invalidGrant "Refresh token expired"))
      else
        let requestedScopes := scopesOrElse record.scopes scopes
        if missingScopes record.scopes requestedScopes then
          (st, .error
            (.invalidGrant "Refresh token not authorized for requested scopes"))
        else
          match determineResource opts (resource <|> record.resource) with
          | .error e => (st, .error e)
          | .ok tokenResource =>
              let accessRecord : AccessTokenRecord :=
                { token := newAccessToken
                  clientId := client.client_id
                  scopes := requestedScopes
                  resource := some tokenResource
                  expiresAt := now + opts.accessTokenTtlSeconds * 1000 }
              let refreshRecord : RefreshTokenRecord :=
                { token := newRefreshToken
                  clientId := client.client_id
                  scopes := requestedScopes
                  resource := some tokenResource
                  expiresAt := now + opts.refreshTokenTtlSeconds * 1000 }
              ({ codes := st.codes
                 accessTokens :=
                   st.accessTokens.set newAccessToken accessRecord
                 refreshTokens :=
                   (st.refreshTokens.set newRefreshToken refreshRecord).del
                     refreshToken },
               .ok { access_token := newAccessToken
                     refresh_token := newRefreshToken
                     token_type := "bearer"
                     expires_in := opts.accessTokenTtlSeconds
                     scope := String.intercalate " " requestedScopes })

/-- `strictResource && record.resource && record.resource.href !== canonical`
in `verifyAccessToken`. -/
def strictResourceViolation (opts : ProviderOptions)
    (resource : Option String) : Bool :=
  opts.strictResource && (match resource with
    | some r => decide (r ≠ opts.resourceServerUrl)
    | none => false)

/-- `InMemoryOAuthProvider.verifyAccessToken`, with lazy eviction of an
expired record captured in the returned state. -/
def verifyAccessToken (opts : ProviderOptions) (token : String) (now : Nat)
    (st : ProviderState) : ProviderState × Except OAuthError AuthInfo :=
  match st.accessTokens.get token with
  | none => (st, .error (.invalidToken "Unknown access token"))
  | some record =>
      if record.expiresAt < now then
        ({ st with accessTokens := st.accessTokens.del token },
         .error (.invalidToken "Access token expired"))
      else if strictResourceViolation opts record.resource then
        (st, .error (.invalidToken "Token not issued for this resource"))
      else
        (st, .ok { token := record.token
                   clientId := record.clientId
                   scopes := record.scopes
                   expiresAt := record.expiresAt / 1000
                   resource := record.resource.getD opts.resourceServerUrl })

/-- `InMemoryOAuthProvider.revokeToken`: delete the token from each store that
contains it; never fails. -/
def revokeToken (token : String) (st : ProviderState) : ProviderState :=
  { st with
    accessTokens :=
      if st.accessTokens.has token then st.accessTokens.del token
      else st.accessTokens
    refreshTokens :=
      if st.refreshTokens.has token then st.refreshTokens.del token
      else st.refreshTokens }

/-! The legacy `OAuthProvider` (oauth.ts, the provider wired into the Express
`MCPServer`).  Unlike the SDK-facing provider it verifies PKCE itself in
`handleAuthorizationCodeGrant` via `verifyPKCE`; the SHA-256/base64url digest
supplied by Node's `crypto` module is an explicit function argument of the
model.  JavaScript string truthiness (`undefined` and `""` are falsy) is
modelled by `strTruthy`. -/

namespace Legacy

/-- JavaScript truthiness of an optional string. -/
def strTruthy : Option String → Bool
  | none => false
  | some s => decide (s ≠ "")

/-- `o || d` on an optional string (JavaScript `||` with falsy `""`). -/
def strOr (o : Option String) (d : String) : String :=
  if strTruthy o then o.getD "" else d

/-- `OAuthAuthorizationCode` from types.ts. -/
structure OAuthAuthorizationCode where
  code : String
  client_id : String
  redirect_uri : Option String
  scope : String
  code_challenge : Option String
  code_challenge_method : Option String
  created_at : Nat
  expires_at : Nat
deriving Repr, DecidableEq

/-- `OAuthAccessToken` from types.ts. -/
structure OAuthAccessToken where
  access_token : String
  client_id : String
  scope : String
  created_at : Nat
  expires_at : Nat
  refresh_token : Option String
  refresh_token_expires_at : Option Nat
deriving Repr, DecidableEq

/-- `OAuthTokenResponse` from types.ts. -/
structure OAuthTokenResponse where
  access_token : String
  token_type : String
  expires_in : Nat
  refresh_token : Option String
  scope : Option String
deriving Repr, DecidableEq

/-- The `authCodes` and `tokens` maps of the legacy `OAuthProvider`. -/
structure LegacyState where
  authCodes : SMap OAuthAuthorizationCode
  tokens : SMap OAuthAccessToken
deriving Repr, DecidableEq

/-- `OAuthProvider.verifyPKCE`: `plain` compares verifier and challenge
directly; `S256` compares the base64url (unpadded) SHA-256 digest of the
verifier — the digest function `sha256b64url` abstracts
`createHash('sha256').update(v).digest('base64url')`; any other method is
rejected. -/
def verifyPKCE (sha256b64url : String → String)
    (verifier challenge method : String) : Bool :=
  if method = "plain" then decide (verifier = challenge)
  else if method = "S256" then decide (sha256b64url verifier = challenge)
  else false

/-- `OAuthProvider.handleAuthorizationCodeGrant`.  Checks, in source order:
code present, not expired (lazy delete when expired), client match, then —
only when a code challenge was stored (truthy) — verifier presence and PKCE;
finally deletes the code and mints an access/refresh pair. -/
def handleAuthorizationCodeGrant (sha256b64url : String → String)
    (tokenExpiration refreshTokenExpiration : Nat)
    (code clientId : String) (codeVerifier : Option String)
    (newAccessToken newRefreshToken : String) (now : Nat)
    (st : LegacyState) : LegacyState × Except String OAuthTokenResponse :=
  match st.authCodes.get code with
  | none => (st, .error "Invalid or expired authorization code")
  | some authCode =>
      if authCode.expires_at < now then
        ({ st with authCodes := st.authCodes.del code },
         .error "Authorization code expired")
      else if authCode.client_id ≠ clientId then
        (st, .error "Client mismatch")
      else
        let tokenData : OAuthAccessToken :=
          { access_token := newAccessToken
            client_id := clientId
            scope := authCode.scope
            created_at := now
            expires_at := now + tokenExpiration * 1000
            refresh_token := some newRefreshToken
            refresh_token_expires_at :=
              some (now + refreshTokenExpiration * 1000) }
        let issued : LegacyState × Except String OAuthTokenResponse :=
          ({ authCodes := st.authCodes.del code
             tokens := st.tokens.set newAccessToken tokenData },
           .ok { access_token := newAccessToken
                 token_type := "Bearer"
                 expires_in := tokenExpiration
                 refresh_token := some newRefreshToken
                 scope := some authCode.scope })
        if strTruthy authCode.code_challenge then
          if !(strTruthy codeVerifier) then
            (st, .error "code_verifier required")
          else if verifyPKCE sha256b64url (codeVerifier.getD "")
              (authCode.code_challenge.getD "")
              (strOr authCode.code_challenge_method "S256") then
            issued
          else
            (st, .error "Invalid code_verifier")
        else
          issued

/-- The `/oauth/token` route of the Express server: any error thrown by the
grant handler is converted to a 400 response with OAuth error code
`invalid_grant` and the thrown message as description. -/
def tokenRoute (r : Except String OAuthTokenResponse) :
    Except (String × String) OAuthTokenResponse :=
  match r with
  | .ok t => .ok t
  | .error msg => .error ("invalid_grant", msg)

end Legacy

/-! Helper lemmas shared by the claim theorems. -/

theorem condDel_eq_del {α : Type} (m : SMap α) (k : String) :
    (if m.has k then m.del k else m) = m.del k := by
  cases hg : m.get k with
  | none => simp [SMap.has, hg, SMap.del_absent m k hg]
  | some v => simp [SMap.has, hg]

theorem revokeToken_eq (token : String) (st : ProviderState) :
    revokeToken token st =
      { st with accessTokens := st.accessTokens.del token
                refreshTokens := st.refreshTokens.del token } := by
  simp [revokeToken, condDel_eq_del]

theorem determineResource_strict_eq (opts : ProviderOptions)
    (requested : Option String) (r : String)
    (hs : opts.strictResource = true)
    (h : determineResource opts requested = .ok r) :
    r = opts.resourceServerUrl := by
  cases requested with
  | none =>
      simp [determineResource, validateResource] at h
      exact h.symm
  | some u =>
      by_cases hu : u = opts.resourceServerUrl
      · simp [determineResource, validateResource, hs, hu] at h
        exact hu ▸ h.symm
      · simp [determineResource, validateResource, hs, hu] at h

theorem strictResourceViolation_of_ok (opts : ProviderOptions)
    (requested : Option String) (r : String)
    (h : determineResource opts requested = .ok r) :
    strictResourceViolation opts (some r) = false := by
  by_cases hs : opts.strictResource
  · have := determineResource_strict_eq opts requested r hs h
    simp [strictResourceViolation, this]
  · simp [strictResourceViolation, hs]

/-! Concrete sample configuration and stores used to instantiate the claim
theorems at explicit inputs. -/

/-- A provider configured as by the constructor defaults: canonical resource
URL, default scopes, 3600 s / 86400 s TTLs, strict-resource mode on. -/
def sampleOpts : ProviderOptions :=
  { resourceServerUrl := "https://rs/mcp"
    defaultScopes := ["mcp:tools"]
    accessTokenTtlSeconds := 3600
    refreshTokenTtlSeconds := 86400
    strictResource := true }

/-- A registered client with one redirect URI. -/
def sampleClient : ClientInformation :=
  { client_id := "cid", redirect_uris := ["https://cb/x"] }

/-- An authorization code minted at time 1000 ms (expiry 1000 + 300000). -/
def sampleCodeRecord : AuthorizationCodeRecord :=
  { codeChallenge := "chal"
    clientId := "cid"
    redirectUri := "https://cb/x"
    scopes := ["mcp:tools"]
    resource := some "https://rs/mcp"
    expiresAt := 301000 }

/-- A store holding just `sampleCodeRecord` under code `"code1"`. -/
def sampleCodeState : ProviderState :=
  { codes := [("code1", sampleCodeRecord)]
    accessTokens := []
    refreshTokens := [] }

/-- An access token bound to the canonical resource, expiring at 1000 ms. -/
def sampleAccessRecord : AccessTokenRecord :=
  { token := "tokA"
    clientId := "cid"
    scopes := ["mcp:tools"]
    resource := some "https://rs/mcp"
    expiresAt := 1000 }

/-- An unexpired access token bound to a foreign resource. -/
def sampleForeignRecord : AccessTokenRecord :=
  { token := "tokB"
    clientId := "cid"
    scopes := ["mcp:tools"]
    resource := some "https://other/mcp"
    expiresAt := 5000 }

/-- A store holding the two sample access tokens. -/
def sampleTokenState : ProviderState :=
  { codes := []
    accessTokens := [("tokA", sampleAccessRecord), ("tokB", sampleForeignRecord)]
    refreshTokens := [] }

/-- A refresh token whose original scope set is `["a"]`. -/
def sampleRefreshRecord : RefreshTokenRecord :=
  { token := "rt0"
    clientId := "cid"
    scopes := ["a"]
    resource := some "https://rs/mcp"
    expiresAt := 86400000 }

/-- A store holding just `sampleRefreshRecord` under token `"rt0"`. -/
def sampleRefreshState : ProviderState :=
  { codes := []
    accessTokens := []
    refreshTokens := [("rt0", sampleRefreshRecord)] }

/-- An authorization request from `sampleClient` with its registered URI. -/
def sampleParams : AuthorizationParams :=
  { redirectUri := "https://cb/x"
    scopes := some ["mcp:tools"]
    codeChallenge := "chal"
    state := some "xyz"
    resource := none }

/-- C6: if the requested redirect URI is not among the client's registered
redirect URIs, `authorize` fails with `invalid_request` and leaves the state
unchanged (no code is stored, no redirect is produced); and whenever
`authorize` does produce a redirect, its target URL is a member of the
client's registered set and it carries the authorization code (and the state,
when supplied) as query parameters. -/
theorem authorize_redirect_registered (opts : ProviderOptions)
    (client : ClientInformation) (params : AuthorizationParams)
    (code : String) (now : Nat) (st : ProviderState) :
    (client.redirect_uris.contains params.redirectUri = false →
      authorize opts client params code now st =
        (st, .error (.invalidRequest "Unregistered redirect_uri"))) ∧
    (∀ st' redirect,
      authorize opts client params code now st = (st', .ok redirect) →
      redirect.url ∈ client.redirect_uris ∧
      redirect.query = redirectQuery code params.state) := by
  constructor
  · intro h
    have hm : params.redirectUri ∉ client.redirect_uris := by simpa using h
    simp [authorize, hm]
  · intro st' redirect h
    by_cases hm : params.redirectUri ∈ client.redirect_uris
    · cases hd : determineResource opts params.resource with
      | error e => simp [authorize, hm, hd] at h
      | ok r =>
          simp [authorize, hm, hd] at h
          obtain ⟨h1, h2⟩ := h
          subst h2
          exact ⟨hm, rfl⟩
    · simp [authorize, hm] at h

/-- C6 witness: the sample client has only `"https://cb/x"` registered, so an
authorization request for `"https://evil/cb"` fails with `invalid_request`,
and the redirect produced for the registered URI targets a registered URI. -/
theorem authorize_redirect_registered_witness :
    authorize sampleOpts sampleClient
      { sampleParams with redirectUri := "https://evil/cb" } "code9" 0
      sampleCodeState =
      (sampleCodeState, .error (.invalidRequest "Unregistered redirect_uri")) :=
  (authorize_redirect_registered sampleOpts sampleClient
    { sampleParams with redirectUri := "https://evil/cb" } "code9" 0
    sampleCodeState).1 (by decide)

/-- C7: for a stored, unexpired access token bound to a resource different
from the canonical resource-server URL, `verifyAccessToken` fails with
`invalid_token` when strict-resource mode is on, and succeeds (returning the
token's `AuthInfo`) when strict-resource mode is off. -/
theorem verifyAccessToken_strict_resource (opts : ProviderOptions)
    (token : String) (now : Nat) (st : ProviderState)
    (record : AccessTokenRecord) (r : String)
    (hget : st.accessTokens.get token = some record)
    (hexp : ¬ record.expiresAt < now)
    (hres : record.resource = some r)
    (hne : r ≠ opts.resourceServerUrl) :
    (verifyAccessToken { opts with strictResource := true } token now st).2 =
      .error (.invalidToken "Token not issued for this resource") ∧
    (verifyAccessToken { opts with strictResource := false } token now st).2 =
      .ok { token := record.token
            clientId := record.clientId
            scopes := record.scopes
            expiresAt := record.expiresAt / 1000
            resource := r } := by
  constructor
  · simp [verifyAccessToken, hget, hexp, strictResourceViolation, hres, hne]
  · simp [verifyAccessToken, hget, hexp, strictResourceViolation, hres]

/-- C7 witness: the sample token bound to `"https://other/mcp"` is rejected
under strict-resource mode against canonical `"https://rs/mcp"`. -/
theorem verifyAccessToken_strict_resource_witness :
    (verifyAccessToken { sampleOpts with strictResource := true } "tokB" 2000
        sampleTokenState).2 =
      .error (.invalidToken "Token not issued for this resource") :=
  (verifyAccessToken_strict_resource sampleOpts "tokB" 2000 sampleTokenState
    sampleForeignRecord "https://other/mcp"
    (by decide) (by decide) (by decide) (by decide)).1

/-- C9: for a valid authorization request (registered redirect URI, fresh
code, valid resource parameter), `authorize` stores the code with absolute
expiry `now + 5 * 60 * 1000` milliseconds (exactly 5 minutes after issuance)
and redirects to the requested redirect URI with the code and, when supplied,
the state as query parameters. -/
theorem authorize_mints_code (opts : ProviderOptions)
    (client : ClientInformation) (params : AuthorizationParams)
    (code : String) (now : Nat) (st : ProviderState) (r : String)
    (hreg : client.redirect_uris.contains params.redirectUri = true)
    (hres : determineResource opts params.resource = .ok r)
    (_hfresh : st.codes.get code = none) :
    ((authorize opts client params code now st).1).codes.get code =
      some { codeChallenge := params.codeChallenge
             clientId := client.client_id
             redirectUri := params.redirectUri
             scopes := scopesOrElse opts.defaultScopes params.scopes
             resource := some r
             expiresAt := now + 5 * 60 * 1000 } ∧
    (authorize opts client params code now st).2 =
      .ok { url := params.redirectUri
            query := redirectQuery code params.state } := by
  have hm : params.redirectUri ∈ client.redirect_uris := by simpa using hreg
  constructor
  · simp [authorize, hm, hres, AUTH_CODE_TTL, SMap.get_set_self]
  · simp [authorize, hm, hres]

/-- C9 witness: authorizing the sample request at time 1000 stores a code
expiring at 301000 and redirects with `code` and `state` parameters. -/
theorem authorize_mints_code_witness :
    ((authorize sampleOpts sampleClient sampleParams "code1" 1000
        { codes := [], accessTokens := [], refreshTokens := [] }).1).codes.get
        "code1" =
      some { codeChallenge := "chal"
             clientId := "cid"
             redirectUri := "https://cb/x"
             scopes := ["mcp:tools"]
             resource := some "https://rs/mcp"
             expiresAt := 1000 + 5 * 60 * 1000 } :=
  (authorize_mints_code sampleOpts sampleClient sampleParams "code1" 1000
    { codes := [], accessTokens := [], refreshTokens := [] } "https://rs/mcp"
    (by decide) rfl rfl).1

/-- C8: `revokeToken` always succeeds and is idempotent: it removes the given
token string from whichever of the access-token and refresh-token stores
contains it (revoking an unknown token leaves the stores unchanged since
deleting an absent key is the identity), and revoking the same token twice
yields exactly the state of revoking it once. -/
theorem revokeToken_idempotent (token : String) (st : ProviderState) :
    (revokeToken token st).accessTokens = st.accessTokens.del token ∧
    (revokeToken token st).refreshTokens = st.refreshTokens.del token ∧
    (revokeToken token st).accessTokens.get token = none ∧
    (revokeToken token st).refreshTokens.get token = none ∧
    (revokeToken token st).codes = st.codes ∧
    revokeToken token (revokeToken token st) = revokeToken token st := by
  refine ⟨?_, ?_, ?_, ?_, ?_, ?_⟩ <;>
    simp [revokeToken_eq, SMap.get_del_self, SMap.del_del]

/-- C1: an authorization code that passes every validation step is exchanged
successfully, the resulting state no longer contains the code (it is deleted
before the tokens are returned), and every subsequent exchange of the same
code — by any client, at any time — fails with `invalid_grant` (single-use,
never reused). -/
theorem exchange_code_single_use (opts : ProviderOptions)
    (client : ClientInformation) (authorizationCode : String)
    (redirectUri resource : Option String) (nat nrt : String) (now : Nat)
    (st : ProviderState) (record : AuthorizationCodeRecord) (tres : String)
    (hget : st.codes.get authorizationCode = some record)
    (hclient : record.clientId = client.client_id)
    (hexp : ¬ record.expiresAt < now)
    (hredir : redirectMismatch record.redirectUri redirectUri = false)
    (hres : determineResource opts (resource <|> record.resource) = .ok tres) :
    exceptOk (exchangeAuthorizationCode opts client authorizationCode
      redirectUri resource nat nrt now st).2 = true ∧
    ((exchangeAuthorizationCode opts client authorizationCode redirectUri
      resource nat nrt now st).1).codes.get authorizationCode = none ∧
    (∀ (client2 : ClientInformation) (ru2 res2 : Option String)
       (nat2 nrt2 : String) (now2 : Nat),
      (exchangeAuthorizationCode opts client2 authorizationCode ru2 res2 nat2
        nrt2 now2
        (exchangeAuthorizationCode opts client authorizationCode redirectUri
          resource nat nrt now st).1).2 =
      .error (.invalidGrant "Invalid authorization code")) := by
  refine ⟨?_, ?_, ?_⟩ <;>
    simp [exchangeAuthorizationCode, hget, hclient, hexp, hredir, hres,
      exceptOk, SMap.get_del_self]

/-- C1 witness: the sample code is exchanged once at time 2000, after which
the exchange of the same code fails with `invalid_grant`. -/
theorem exchange_code_single_use_witness :
    (exchangeAuthorizationCode sampleOpts sampleClient "code1" none none
      "at2" "rt2" 2500
      (exchangeAuthorizationCode sampleOpts sampleClient "code1"
        (some "https://cb/x") none "at1" "rt1" 2000 sampleCodeState).1).2 =
    .error (.invalidGrant "Invalid authorization code") :=
  (exchange_code_single_use sampleOpts sampleClient "code1"
    (some "https://cb/x") none "at1" "rt1" 2000 sampleCodeState
    sampleCodeRecord "https://rs/mcp"
    (by decide) (by decide) (by decide) (by decide) rfl).2.2
    sampleClient none none "at2" "rt2" 2500

/-- C4: a refresh-token exchange that passes every validation step succeeds,
returns the freshly supplied access/refresh pair, deletes the old refresh
token from the refresh-token store (rotation), keeps the new refresh token
stored, and every subsequent exchange presenting the old refresh token fails
with `invalid_grant`. -/
theorem refresh_token_rotation (opts : ProviderOptions)
    (client : ClientInformation) (refreshToken : String)
    (scopes : Option (List String)) (resource : Option String)
    (nat nrt : String) (now : Nat) (st : ProviderState)
    (record : RefreshTokenRecord) (tres : String)
    (hget : st.refreshTokens.get refreshToken = some record)
    (hclient : record.clientId = client.client_id)
    (hexp : ¬ record.expiresAt < now)
    (hscope : missingScopes record.scopes
      (scopesOrElse record.scopes scopes) = false)
    (hres : determineResource opts (resource <|> record.resource) = .ok tres)
    (hfresh : nrt ≠ refreshToken) :
    (exchangeRefreshToken opts client refreshToken scopes resource nat nrt now
      st).2 =
      .ok { access_token := nat
            refresh_token := nrt
            token_type := "bearer"
            expires_in := opts.accessTokenTtlSeconds
            scope := String.intercalate " "
              (scopesOrElse record.scopes scopes) } ∧
    ((exchangeRefreshToken opts client refreshToken scopes resource nat nrt
      now st).1).refreshTokens.get refreshToken = none ∧
    ((exchangeRefreshToken opts client refreshToken scopes resource nat nrt
      now st).1).refreshTokens.get nrt =
      some { token := nrt
             clientId := client.client_id
             scopes := scopesOrElse record.scopes scopes
             resource := some tres
             expiresAt := now + opts.refreshTokenTtlSeconds * 1000 } ∧
    (∀ (client2 : ClientInformation) (scopes2 : Option (List String))
       (res2 : Option String) (nat2 nrt2 : String) (now2 : Nat),
      (exchangeRefreshToken opts client2 refreshToken scopes2 res2 nat2 nrt2
        now2
        (exchangeRefreshToken opts client refreshToken scopes resource nat nrt
          now st).1).2 =
      .error (.invalidGrant "Invalid refresh token")) := by
  refine ⟨?_, ?_, ?_, ?_⟩ <;>
    simp [exchangeRefreshToken, hget, hclient, hexp, hscope, hres, exceptOk,
      SMap.get_del_self, SMap.get_del_ne _ hfresh, SMap.get_set_self]

/-- C4 witness: rotating the sample refresh token deletes `"rt0"`, so a
second exchange presenting `"rt0"` fails with `invalid_grant`. -/
theorem refresh_token_rotation_witness :
    (exchangeRefreshToken sampleOpts sampleClient "rt0" none none "at3" "rt3"
      2000
      (exchangeRefreshToken sampleOpts sampleClient "rt0" none none "at2"
        "rt2" 1000 sampleRefreshState).1).2 =
    .error (.invalidGrant "Invalid refresh token") :=
  (refresh_token_rotation sampleOpts sampleClient "rt0" none none "at2" "rt2"
    1000 sampleRefreshState sampleRefreshRecord "https://rs/mcp"
    (by decide) (by decide) (by decide) (by decide) rfl
    (by decide)).2.2.2 sampleClient none none "at3" "rt3" 2000

/-- C5: a refresh-token exchange requesting a non-empty scope list fails with
`invalid_grant` whenever some requested scope is not among the stored refresh
token's original scopes, and whenever such an exchange succeeds every
requested scope is a member of the original scopes (scopes never expand on
refresh). -/
theorem refresh_scope_subset (opts : ProviderOptions)
    (client : ClientInformation) (refreshToken : String) (l : List String)
    (resource : Option String) (nat nrt : String) (now : Nat)
    (st : ProviderState) (record : RefreshTokenRecord)
    (hget : st.refreshTokens.get refreshToken = some record)
    (hne : l ≠ []) :
    ((∃ s ∈ l, s ∉ record.scopes) →
      ∃ msg, (exchangeRefreshToken opts client refreshToken (some l) resource
        nat nrt now st).2 = .error (.invalidGrant msg)) ∧
    (∀ toks, (exchangeRefreshToken opts client refreshToken (some l) resource
        nat nrt now st).2 = .ok toks →
      ∀ s ∈ l, s ∈ record.scopes) := by
  have hreq : scopesOrElse record.scopes (some l) = l := by
    simp [scopesOrElse, hne]
  have part1 : (∃ s ∈ l, s ∉ record.scopes) →
      ∃ msg, (exchangeRefreshToken opts client refreshToken (some l) resource
        nat nrt now st).2 = .error (.invalidGrant msg) := by
    rintro ⟨s, hs, hns⟩
    by_cases hclient : record.clientId = client.client_id
    · by_cases hexp : record.expiresAt < now
      · exact ⟨"Refresh token expired",
          by simp [exchangeRefreshToken, hget, hclient, hexp]⟩
      · have hmiss : missingScopes record.scopes
            (scopesOrElse record.scopes (some l)) = true := by
          rw [hreq]
          simp only [missingScopes, List.any_eq_true]
          exact ⟨s, hs, by simpa using hns⟩
        exact ⟨"Refresh token not authorized for requested scopes",
          by simp [exchangeRefreshToken, hget, hclient, hexp, hmiss]⟩
    · exact ⟨"Invalid refresh token",
        by simp [exchangeRefreshToken, hget, hclient]⟩
  refine ⟨part1, ?_⟩
  intro toks h s hs
  by_contra hns
  obtain ⟨msg, hmsg⟩ := part1 ⟨s, hs, hns⟩
  rw [hmsg] at h
  exact Except.noConfusion h

/-- C5 witness: refreshing the sample token (original scope `["a"]`) with
requested scopes `["a", "b"]` fails with `invalid_grant`. -/
theorem refresh_scope_subset_witness :
    ∃ msg, (exchangeRefreshToken sampleOpts sampleClient "rt0"
      (some ["a", "b"]) none "at2" "rt2" 1000 sampleRefreshState).2 =
      .error (.invalidGrant msg) :=
  (refresh_scope_subset sampleOpts sampleClient "rt0" ["a", "b"] none "at2"
    "rt2" 1000 sampleRefreshState sampleRefreshRecord
    (by decide) (by decide)).1 ⟨"b", by decide, by decide⟩

/-- C2: for a stored authorization code whose `code_challenge_method` is
`S256` and whose challenge is present, the legacy provider's token exchange
(the PKCE-verifying path, `handleAuthorizationCodeGrant` via `verifyPKCE`)
succeeds if and only if the SHA-256/base64url digest of the supplied code
verifier equals the stored `code_challenge`; on any digest mismatch the token
endpoint responds with `invalid_grant`.  The digest function is universally
quantified, so the equivalence holds for the concrete
`createHash('sha256').digest('base64url')` in particular. -/
theorem pkce_s256_exchange_iff (sha256b64url : String → String)
    (tokenExpiration refreshTokenExpiration : Nat) (code clientId v : String)
    (nat nrt : String) (now : Nat) (st : Legacy.LegacyState)
    (authCode : Legacy.OAuthAuthorizationCode) (c : String)
    (hget : st.authCodes.get code = some authCode)
    (hchal : authCode.code_challenge = some c)
    (hc : c ≠ "")
    (hmethod : authCode.code_challenge_method = some "S256")
    (hexp : ¬ authCode.expires_at < now)
    (hclient : authCode.client_id = clientId)
    (hv : v ≠ "") :
    (exceptOk (Legacy.handleAuthorizationCodeGrant sha256b64url
      tokenExpiration refreshTokenExpiration code clientId (some v) nat nrt
      now st).2 = true ↔ sha256b64url v = c) ∧
    (sha256b64url v ≠ c →
      Legacy.tokenRoute (Legacy.handleAuthorizationCodeGrant sha256b64url
        tokenExpiration refreshTokenExpiration code clientId (some v) nat nrt
        now st).2 = .error ("invalid_grant", "Invalid code_verifier")) := by
  have hm : Legacy.strOr authCode.code_challenge_method "S256" = "S256" := by
    simp [Legacy.strOr, Legacy.strTruthy, hmethod]
  by_cases hpk : sha256b64url v = c
  · constructor
    · simp [Legacy.handleAuthorizationCodeGrant, hget, hexp, hclient,
        Legacy.strTruthy, hchal, hc, hv, hm, Legacy.verifyPKCE, hpk, exceptOk]
    · intro hne
      exact absurd hpk hne
  · constructor
    · simp [Legacy.handleAuthorizationCodeGrant, hget, hexp, hclient,
        Legacy.strTruthy, hchal, hc, hv, hm, Legacy.verifyPKCE, hpk, exceptOk]
    · intro _
      simp [Legacy.handleAuthorizationCodeGrant, hget, hexp, hclient,
        Legacy.strTruthy, hchal, hc, hv, hm, Legacy.verifyPKCE, hpk,
        Legacy.tokenRoute]

/-- A stand-in digest for instantiating `pkce_s256_exchange_iff` at a
concrete input. -/
def sampleDigest (s : String) : String := s ++ "#h"

/-- A stored legacy authorization code carrying the S256 challenge of
verifier `"v"` under `sampleDigest`. -/
def sampleLegacyCode : Legacy.OAuthAuthorizationCode :=
  { code := "c"
    client_id := "cid"
    redirect_uri := some "https://cb/x"
    scope := "mcp"
    code_challenge := some "v#h"
    code_challenge_method := some "S256"
    created_at := 0
    expires_at := 600000 }

/-- A legacy store holding just `sampleLegacyCode`. -/
def sampleLegacyState : Legacy.LegacyState :=
  { authCodes := [("c", sampleLegacyCode)], tokens := [] }

/-- C2 witness: with the stand-in digest the matching verifier `"v"` is
accepted and a mismatching verifier `"w"` is answered with `invalid_grant`. -/
theorem pkce_s256_exchange_iff_witness :
    exceptOk (Legacy.handleAuthorizationCodeGrant sampleDigest 3600 86400 "c"
      "cid" (some "v") "at" "rt" 10 sampleLegacyState).2 = true ∧
    Legacy.tokenRoute (Legacy.handleAuthorizationCodeGrant sampleDigest 3600
      86400 "c" "cid" (some "w") "at" "rt" 10 sampleLegacyState).2 =
      .error ("invalid_grant", "Invalid code_verifier") :=
  ⟨(pkce_s256_exchange_iff sampleDigest 3600 86400 "c" "cid" "v" "at" "rt" 10
      sampleLegacyState sampleLegacyCode "v#h" (by decide) (by decide)
      (by decide) (by decide) (by decide) (by decide) (by decide)).1.mpr
    (by decide),
   (pkce_s256_exchange_iff sampleDigest 3600 86400 "c" "cid" "w" "at" "rt" 10
      sampleLegacyState sampleLegacyCode "v#h" (by decide) (by decide)
      (by decide) (by decide) (by decide) (by decide) (by decide)).2
    (by decide)⟩

/-- C3 counterexample: the claim says a presentation at a time exactly equal
to `expires_at` is treated as expired (inclusive boundary).  In the code the
expiry checks are strict (`record.expiresAt < Date.now()`), so at
`now = expires_at` both the sample access token (expiring at 1000) and the
sample authorization code (expiring at 301000) are still accepted. -/
theorem expiry_boundary_counterexample :
    sampleTokenState.accessTokens.get "tokA" = some sampleAccessRecord ∧
    sampleAccessRecord.expiresAt = 1000 ∧
    exceptOk (verifyAccessToken sampleOpts "tokA" 1000 sampleTokenState).2 =
      true ∧
    sampleCodeState.codes.get "code1" = some sampleCodeRecord ∧
    sampleCodeRecord.expiresAt = 301000 ∧
    exceptOk (exchangeAuthorizationCode sampleOpts sampleClient "code1" none
      none "at1" "rt1" 301000 sampleCodeState).2 = true := by
  decide

/-- C3 amended: the expiry boundary is exclusive.  A code or access token
presented strictly after its `expires_at` is rejected (`invalid_grant` /
`invalid_token`), while a presentation at a time exactly equal to
`expires_at` is not treated as expired: with the other checks passing it is
accepted. -/
theorem expiry_boundary_exclusive (opts : ProviderOptions)
    (client : ClientInformation) (ac : String) (ru res : Option String)
    (nat nrt : String) (now : Nat) (st : ProviderState)
    (record : AuthorizationCodeRecord) (tok : String)
    (trec : AccessTokenRecord) (tres : String) :
    (st.codes.get ac = some record → record.expiresAt < now →
      ∃ msg, (exchangeAuthorizationCode opts client ac ru res nat nrt now
        st).2 = .error (.invalidGrant msg)) ∧
    (st.accessTokens.get tok = some trec → trec.expiresAt < now →
      (verifyAccessToken opts tok now st).2 =
        .error (.invalidToken "Access token expired")) ∧
    (st.accessTokens.get tok = some trec → trec.expiresAt = now →
      strictResourceViolation opts trec.resource = false →
      (verifyAccessToken opts tok now st).2 =
        .ok { token := trec.token
              clientId := trec.clientId
              scopes := trec.scopes
              expiresAt := trec.expiresAt / 1000
              resource := trec.resource.getD opts.resourceServerUrl }) ∧
    (st.codes.get ac = some record → record.expiresAt = now →
      record.clientId = client.client_id →
      redirectMismatch record.redirectUri ru = false →
      determineResource opts (res <|> record.resource) = .ok tres →
      exceptOk (exchangeAuthorizationCode opts client ac ru res nat nrt now
        st).2 = true) := by
  refine ⟨?_, ?_, ?_, ?_⟩
  · intro hget hlt
    by_cases hclient : record.clientId = client.client_id
    · exact ⟨"Authorization code expired",
        by simp [exchangeAuthorizationCode, hget, hclient, hlt]⟩
    · exact ⟨"Invalid authorization code",
        by simp [exchangeAuthorizationCode, hget, hclient]⟩
  · intro hget hlt
    simp [verifyAccessToken, hget, hlt]
  · intro hget heq hviol
    have hnlt : ¬ trec.expiresAt < now := by omega
    simp [verifyAccessToken, hget, hnlt, hviol]
  · intro hget heq hclient hredir hres
    have hnlt : ¬ record.expiresAt < now := by omega
    simp [exchangeAuthorizationCode, hget, hclient, hnlt, hredir, hres,
      exceptOk]

/-- C3 amended witness: the sample access token (expiring at 1000) is
rejected as expired at time 1001 and accepted at the boundary time 1000. -/
theorem expiry_boundary_exclusive_witness :
    (verifyAccessToken sampleOpts "tokA" 1001 sampleTokenState).2 =
      .error (.invalidToken "Access token expired") ∧
    (verifyAccessToken sampleOpts "tokA" 1000 sampleTokenState).2 =
      .ok { token := "tokA"
            clientId := "cid"
            scopes := ["mcp:tools"]
            expiresAt := 1
            resource := "https://rs/mcp" } :=
  ⟨(expiry_boundary_exclusive sampleOpts sampleClient "code1" none none "at1"
      "rt1" 1001 sampleTokenState sampleCodeRecord "tokA" sampleAccessRecord
      "https://rs/mcp").2.1 (by decide) (by decide),
   (expiry_boundary_exclusive sampleOpts sampleClient "code1" none none "at1"
      "rt1" 1000 sampleTokenState sampleCodeRecord "tokA" sampleAccessRecord
      "https://rs/mcp").2.2.1 (by decide) (by decide) (by decide)⟩

/-- C10: after a successful code exchange mints a paired access/refresh
token, revoking the refresh-token string deletes only the refresh token: the
access-token store is left exactly as it was, and `verifyAccessToken` still
accepts the paired access token at any time up to its own expiry. -/
theorem revoke_refresh_preserves_access (opts : ProviderOptions)
    (client : ClientInformation) (authorizationCode : String)
    (ru res : Option String) (nat nrt : String) (now : Nat)
    (st : ProviderState) (record : AuthorizationCodeRecord) (tres : String)
    (hget : st.codes.get authorizationCode = some record)
    (hclient : record.clientId = client.client_id)
    (hexp : ¬ record.expiresAt < now)
    (hredir : redirectMismatch record.redirectUri ru = false)
    (hres : determineResource opts (res <|> record.resource) = .ok tres)
    (hfresh : nat ≠ nrt)
    (habs : st.accessTokens.get nrt = none) :
    (revokeToken nrt (exchangeAuthorizationCode opts client authorizationCode
      ru res nat nrt now st).1).refreshTokens.get nrt = none ∧
    (revokeToken nrt (exchangeAuthorizationCode opts client authorizationCode
      ru res nat nrt now st).1).accessTokens =
      ((exchangeAuthorizationCode opts client authorizationCode ru res nat
        nrt now st).1).accessTokens ∧
    (∀ now2 : Nat, ¬ now + opts.accessTokenTtlSeconds * 1000 < now2 →
      exceptOk (verifyAccessToken opts nat now2
        (revokeToken nrt (exchangeAuthorizationCode opts client
          authorizationCode ru res nat nrt now st).1)).2 = true) := by
  have hst1 : (exchangeAuthorizationCode opts client authorizationCode ru res
      nat nrt now st).1 =
      { codes := st.codes.del authorizationCode
        accessTokens := st.accessTokens.set nat
          { token := nat
            clientId := client.client_id
            scopes := record.scopes
            resource := some tres
            expiresAt := now + opts.accessTokenTtlSeconds * 1000 }
        refreshTokens := st.refreshTokens.set nrt
          { token := nrt
            clientId := client.client_id
            scopes := record.scopes
            resource := some tres
            expiresAt := now + opts.refreshTokenTtlSeconds * 1000 } } := by
    simp [exchangeAuthorizationCode, hget, hclient, hexp, hredir, hres]
  have hnone : (st.accessTokens.set nat
      { token := nat
        clientId := client.client_id
        scopes := record.scopes
        resource := some tres
        expiresAt := now + opts.accessTokenTtlSeconds * 1000 }).get nrt =
      none := by
    rw [SMap.get_set_ne _ _ (Ne.symm hfresh)]
    exact habs
  refine ⟨?_, ?_, ?_⟩
  · rw [hst1, revokeToken_eq]
    simp [SMap.get_del_self]
  · rw [hst1, revokeToken_eq]
    simp [SMap.del_absent _ _ hnone]
  · intro now2 hnow2
    rw [hst1, revokeToken_eq]
    simp only [SMap.del_absent _ _ hnone]
    simp [verifyAccessToken, SMap.get_set_self, hnow2, exceptOk,
      strictResourceViolation_of_ok opts (res <|> record.resource) tres hres]

/-- C10 witness: exchanging the sample code mints the pair
`("at1", "rt1")`; revoking `"rt1"` leaves `"at1"` verifiable at a time
within its TTL. -/
theorem revoke_refresh_preserves_access_witness :
    exceptOk (verifyAccessToken sampleOpts "at1" 3602000
      (revokeToken "rt1" (exchangeAuthorizationCode sampleOpts sampleClient
        "code1" none none "at1" "rt1" 2000 sampleCodeState).1)).2 = true :=
  (revoke_refresh_preserves_access sampleOpts sampleClient "code1" none none
    "at1" "rt1" 2000 sampleCodeState sampleCodeRecord "https://rs/mcp"
    (by decide) (by decide) (by decide) (by decide) rfl (by decide)
    (by decide)).2.2 3602000 (by decide)

end FireflyOAuth
